import Mathlib

/-!
Shallow embedding of the sol-tracker client (`src/scripts/main.js`) and proofs
about its specification.

Strings that are only compared for equality are kept as Lean `String`;
strings that the code slices and searches (the query string, the server URL)
are modelled as `List Char`, the logical content of a JS string.
JS objects with dynamic fields (the options argument) are modelled as
association lists of `String × JSVal`.
-/

set_option autoImplicit false

namespace SolTracker

/-- A loosely-typed JavaScript value, as far as `validate` can observe it.
`undefined` stands for a missing property. -/
inductive JSVal where
  | undefined
  | null
  | bool (b : Bool)
  | str (s : String)
  | num (n : Int)
deriving DecidableEq, Repr

/-- The normalized options record produced by `validate`. -/
structure TrackerOptions where
  detailed : Bool
  ignoreLocalhost : Bool
  ignoreOwnVisits : Bool
deriving DecidableEq, Repr

/-- Property lookup on a JS object: a missing key reads as `undefined`. -/
def getField (o : List (String × JSVal)) (k : String) : JSVal :=
  match o.find? (fun kv => kv.1 == k) with
  | some kv => kv.2
  | none => JSVal.undefined

/-- Definition `validate` from main.js: `detailed` is `options.detailed === true`,
`ignoreLocalhost` is `options.ignoreLocalhost !== false`,
`ignoreOwnVisits` is `options.ignoreOwnVisits !== false`.
The absent-argument call `validate()` is `validate []`. Total: no input raises. -/
def validate (options : List (String × JSVal)) : TrackerOptions where
  detailed := decide (getField options "detailed" = .bool true)
  ignoreLocalhost := !decide (getField options "ignoreLocalhost" = .bool false)
  ignoreOwnVisits := !decide (getField options "ignoreOwnVisits" = .bool false)

/-- Definition `isLocalhost` from main.js: exact string match against four hosts. -/
def isLocalhost (hostname : String) : Bool :=
  hostname = "" || hostname = "localhost" || hostname = "127.0.0.1" || hostname = "::1"

/-- Does `sub` occur as a contiguous sublist of `s`? (Substring search.) -/
def hasSubList (sub : List Char) : List Char → Bool
  | [] => sub.isEmpty
  | c :: rest => sub.isPrefixOf (c :: rest) || hasSubList sub rest

/-- ASCII lowercase of the characters of a string; models the `i` flag of the
bot regex (its patterns are plain ASCII words). -/
def lowerChars (s : String) : List Char :=
  s.data.map Char.toLower

/-- Definition `isBot` from main.js: the regex `/bot|crawler|spider|crawling/i` tested
against the user agent, i.e. a case-insensitive substring match of any of the
four words. -/
def isBot (userAgent : String) : Bool :=
  hasSubList "bot".data (lowerChars userAgent) ||
  hasSubList "crawler".data (lowerChars userAgent) ||
  hasSubList "spider".data (lowerChars userAgent) ||
  hasSubList "crawling".data (lowerChars userAgent)

/-- The sentinel id the server returns for deliberately ignored visitors. -/
def fakeIdValue : String := "88888888-8888-8888-8888-888888888888"

/-- Definition `isFakeId` from main.js: exact equality with the sentinel. -/
def isFakeId (id : String) : Bool :=
  id = fakeIdValue

/-- Definition `isInBackground` from main.js: the visibility state equals `hidden`,
with the visibility state passed in explicitly. -/
def isInBackground (visibilityState : String) : Bool :=
  visibilityState = "hidden"

/-! JS string `split`, modelled on `List Char`.

`jsSplitF` is `String.prototype.split` with a non-empty string separator,
scanning left to right for non-overlapping occurrences; the fuel argument
(instantiated with the string length) only makes the recursion structural. -/

def jsSplitF (sep : List Char) : Nat → List Char → List (List Char)
  | _, [] => [[]]
  | 0, s => [s]
  | fuel + 1, c :: rest =>
    if sep.isPrefixOf (c :: rest) then
      [] :: jsSplitF sep fuel ((c :: rest).drop sep.length)
    else
      match jsSplitF sep fuel rest with
      | [] => [[c]]
      | h :: t => (c :: h) :: t

/-- JS `s.split(sep)` for a non-empty separator. -/
def jsSplit (sep s : List Char) : List (List Char) :=
  jsSplitF sep s.length s

/-- The part of `s` before its first occurrence of `sep` (all of `s` if none). -/
def takeUntil (sep : List Char) : List Char → List Char
  | [] => []
  | c :: rest => if sep.isPrefixOf (c :: rest) then [] else c :: takeUntil sep rest

/-- The part of `s` after its first occurrence of `sep`, if any. -/
def afterFirst (sep : List Char) : List Char → Option (List Char)
  | [] => none
  | c :: rest =>
    if sep.isPrefixOf (c :: rest) then some ((c :: rest).drop sep.length)
    else afterFirst sep rest

/-- Definition `source` from main.js, over the raw `location.search` text:
element 1 of the split on the literal `source=` (or the empty string when
missing), then element 0 of its split on `&`; `undefined` when empty. -/
def source (search : List Char) : Option (List Char) :=
  let seg := (jsSplit "source=".data search).getD 1 []
  let v := (jsSplit "&".data seg).getD 0 []
  if v = [] then none else some v

/-- Modelled from the words of the spec (§4.3): the value of the query-string
**parameter named `source`** — parameters are the `&`-separated pieces after
the leading `?`, a parameter is named by the part before its first `=` —
first occurrence, absent if missing or empty. -/
def sourceParam (search : List Char) : Option (List Char) :=
  let q : List Char := match search with
    | '?' :: t => t
    | t => t
  match (jsSplit "&".data q).find? (fun p => takeUntil "=".data p = "source".data) with
  | none => none
  | some p =>
    match afterFirst "=".data p with
    | none => none
    | some v =>
      let v := takeUntil "&".data v
      if v = [] then none else some v

/-- Direct-scan description of what the code actually extracts: the text after
the first occurrence of the literal `source=` anywhere in the search string,
truncated at the next occurrence of `source=` and at the next `&`; absent when
empty or when `source=` does not occur. -/
def sourceAmended (search : List Char) : Option (List Char) :=
  match afterFirst "source=".data search with
  | none => none
  | some t =>
    let v := takeUntil "&".data (takeUntil "source=".data t)
    if v = [] then none else some v

/-- Definition `endpoint` from main.js: the server base URL, then a slash
unless the URL already ends in one (a `substr(-1)` test), then `api`. -/
def endpoint (server : List Char) : List Char :=
  server ++ (if server.getLast? = some '/' then [] else ['/']) ++ "api".data

/-! Attribute collector. -/

/-- The ambient page/platform state `attributes` reads at call time. -/
structure Env where
  href : String
  referrer : String
  search : List Char
  language : String
  screenWidth : Int
  screenHeight : Int
  screenColorDepth : Int
  deviceName : String
  deviceManufacturer : String
  osName : String
  osVersion : String
  browserName : String
  browserVersion : String
  outerWidth : Int
  outerHeight : Int
deriving DecidableEq, Repr

/-- The detailed attribute block of `attributes` (present only when `detailed`). -/
structure DetailedData where
  siteLanguage : String
  screenWidth : Int
  screenHeight : Int
  screenColorDepth : Int
  deviceName : String
  deviceManufacturer : String
  osName : String
  osVersion : String
  browserName : String
  browserVersion : String
  browserWidth : Int
  browserHeight : Int
deriving DecidableEq, Repr

/-- The attribute snapshot sent with createRecord/createAction. -/
structure Attributes where
  siteLocation : String
  siteReferrer : String
  source : Option (List Char)
  detailedData : Option DetailedData
deriving DecidableEq, Repr

/-- Definition `attributes` from main.js: the default fields always; the detailed block
only when `detailed === true`. `siteLanguage` is the first two characters of
the negotiated language. -/
def attributes (env : Env) (detailed : Bool) : Attributes where
  siteLocation := env.href
  siteReferrer := env.referrer
  source := source env.search
  detailedData :=
    if detailed then
      some {
        siteLanguage := env.language.take 2
        screenWidth := env.screenWidth
        screenHeight := env.screenHeight
        screenColorDepth := env.screenColorDepth
        deviceName := env.deviceName
        deviceManufacturer := env.deviceManufacturer
        osName := env.osName
        osVersion := env.osVersion
        browserName := env.browserName
        browserVersion := env.browserVersion
        browserWidth := env.outerWidth
        browserHeight := env.outerHeight }
    else none

/-! Request builder.

Each builder in main.js returns `{query, variables}` where `query` is a fixed
GraphQL mutation text per operation; only the variables differ per call, so a
request body is modelled by its operation tag and variables. -/

/-- A wire request body: operation (fixed query text) plus variables. -/
inductive RequestBody where
  | createRecord (domainId : String) (input : Attributes)
  | updateRecord (recordId : String)
  | createAction (eventId : String) (input : Attributes)
  | updateAction (actionId : String) (input : Attributes)
deriving DecidableEq, Repr

/-- Definition `createRecordBody` from main.js: variables `{domainId, input}`. -/
def createRecordBody (domainId : String) (input : Attributes) : RequestBody :=
  .createRecord domainId input

/-- Definition `updateRecordBody` from main.js: variables `{recordId}`, no input payload. -/
def updateRecordBody (recordId : String) : RequestBody :=
  .updateRecord recordId

/-- Definition `createActionBody` from main.js: variables `{eventId, input}`. -/
def createActionBody (eventId : String) (input : Attributes) : RequestBody :=
  .createAction eventId input

/-- Definition `updateActionBody` from main.js: variables `{actionId, input}`. -/
def updateActionBody (actionId : String) (input : Attributes) : RequestBody :=
  .updateAction actionId input

/-! Transport. -/

/-- The parsed JSON response body, reduced to the paths the client reads:
the optional top-level `errors` array (each entry reduced to its `message`)
and the id at `data.<op>.payload.id`. -/
structure Json where
  errors : Option (List String)
  payloadId : String
deriving DecidableEq, Repr

/-- What the network did for one `fetch`: the promise rejected (network
failure, browser-level error), or a response arrived with an HTTP
ok-flag and a parsed body. -/
inductive FetchOutcome where
  | rejected (msg : String)
  | response (ok : Bool) (body : Json)
deriving DecidableEq, Repr

/-- The message of the error thrown on a non-success HTTP status. -/
def statusErrorMsg : String := "Server returned with an unhandled status"

/-- The TypeError raised by `json.errors[0].message` when `errors` is `[]`
(reading `message` of `undefined`); its exact text is environment-supplied. -/
def emptyErrorsMsg : String := "TypeError: json.errors[0] is undefined"

/-- The condition under which `send` reaches its callback: ok status and no
top-level `errors` field; yields the parsed body handed to the callback. -/
def sendClean : FetchOutcome → Option Json
  | .response true body => if body.errors = none then some body else none
  | _ => none

/-- The promise chain of `send` after `fetch` resolves: first component is the
argument the callback was invoked with (if it was), second is the rejection
reaching the final `.catch` (if any). The callback is abstracted by what it
throws: `next = some f` with `f body = some m` models a callback that throws
`m` when run on `body`. -/
def sendChain (resp : FetchOutcome) (next : Option (Json → Option String)) :
    Option Json × Option String :=
  match resp with
  | .rejected m => (none, some m)
  | .response ok body =>
    if ok = false then (none, some statusErrorMsg)
    else
      match body.errors with
      | some [] => (none, some emptyErrorsMsg)
      | some (m :: _) => (none, some m)
      | none =>
        match next with
        | none => (none, none)
        | some f => (some body, f body)

/-- Everything observable about one `send(url, body, options, next)` call. -/
structure SendResult where
  /-- Number of fetches issued (the body calls `fetch` once, no retry). -/
  requests : Nat
  /-- Whether the request used `credentials: omit` (else `include`). -/
  credentialsOmitted : Bool
  /-- Argument the callback was invoked with, when it was invoked. -/
  callbackArg : Option Json
  /-- Messages logged by the final `.catch` via `console.error`. -/
  errorLogs : List String
  /-- A rejection escaping past the `.catch` boundary to the caller. -/
  escaped : Option String
deriving DecidableEq, Repr

/-- Definition `send` from main.js: one fetch, credential policy from `ignoreOwnVisits`,
then the promise chain; the final `.catch` turns any rejection into a
`console.error` log and nothing propagates further. -/
def send (options : TrackerOptions) (resp : FetchOutcome)
    (next : Option (Json → Option String)) : SendResult :=
  let chain := sendChain resp next
  { requests := 1
    credentialsOmitted := options.ignoreOwnVisits
    callbackArg := chain.1
    errorLogs := chain.2.toList
    escaped := none }

/-! Session controller: the heartbeat state machine.

The closure state of `_record`/`_updateRecord` — the `isStopped` flag, the
live `setInterval` handle and the captured record id — reified as a state
record; the interval callback and `stop` become functions on it. -/

/-- Warning text for the ignored-visitor sentinel. -/
def ownSiteWarning : String := "Tracker ignores you because this is your own site"

/-- Per-session mutable state: the `isStopped` flag, whether the interval
timer is still registered, and the captured record id. -/
structure SessionState where
  isStopped : Bool
  timerActive : Bool
  recordId : String
deriving DecidableEq, Repr

/-- One firing of the interval callback in `_record`/`_updateRecord`
(`hidden` is the current background state of the page): stopped → clear the
interval and send nothing; in background → send nothing, keep the timer;
otherwise send one updateRecord for the captured id. -/
def heartbeatTick (hidden : Bool) (s : SessionState) : SessionState × List RequestBody :=
  if s.isStopped then ({ s with timerActive := false }, [])
  else if hidden then (s, [])
  else (s, [updateRecordBody s.recordId])

/-- The `stop` closure: sets `isStopped`; nothing else (the timer is cleared
only by a later tick observing the flag). -/
def stopHeartbeat (s : SessionState) : SessionState :=
  { s with isStopped := true }

/-- An event the host scheduler delivers to a session: an interval firing
(with the current page visibility) or a call to `stop()` on the handle. -/
inductive SchedEv where
  | tick (hidden : Bool)
  | stopCall
deriving DecidableEq, Repr

/-- Run a session against a schedule of events, collecting every request the
ticks send. A tick only fires while the interval is registered. -/
def runHeartbeat : SessionState → List SchedEv → SessionState × List RequestBody
  | s, [] => (s, [])
  | s, .stopCall :: evs => runHeartbeat (stopHeartbeat s) evs
  | s, .tick h :: evs =>
    if s.timerActive then
      let step := heartbeatTick h s
      let rest := runHeartbeat step.1 evs
      (rest.1, step.2 ++ rest.2)
    else runHeartbeat s evs

/-- Everything observable about one `_record(domainId, attrs, next)` call,
given the outcome of its createRecord request. -/
structure RecordResult where
  /-- Requests issued by the call itself (the one createRecord send). -/
  sends : List RequestBody
  /-- Messages logged via `console.warn`. -/
  warnings : List String
  /-- Messages logged via `console.error` at the transport boundary. -/
  errorLogs : List String
  /-- Heartbeat session installed by the success callback, if any. -/
  session : Option SessionState
  /-- Argument the `next` callback of the caller received, if invoked. -/
  nextArg : Option String
deriving DecidableEq, Repr

/-- Definition `_record` from main.js: sends createRecord through `send`; on a clean
response, reads `json.data.createRecord.payload.id`; a sentinel id only warns
(no timer, no `next`); otherwise the interval is installed with a fresh
un-stopped state and `next` receives the id. `hasNext` is whether a `next`
function was passed. -/
def trackerRecord (options : TrackerOptions) (domainId : String) (attrs : Attributes)
    (hasNext : Bool) (resp : FetchOutcome) : RecordResult :=
  let tr := send options resp (some (fun _ => none))
  match tr.callbackArg with
  | none =>
    { sends := [createRecordBody domainId attrs], warnings := [],
      errorLogs := tr.errorLogs, session := none, nextArg := none }
  | some json =>
    let recordId := json.payloadId
    if isFakeId recordId then
      { sends := [createRecordBody domainId attrs], warnings := [ownSiteWarning],
        errorLogs := tr.errorLogs, session := none, nextArg := none }
    else
      { sends := [createRecordBody domainId attrs], warnings := [],
        errorLogs := tr.errorLogs,
        session := some { isStopped := false, timerActive := true, recordId := recordId },
        nextArg := if hasNext then some recordId else none }

/-- Everything observable about one `_updateRecord(recordId)` call (the
resume entry point; it performs no create send of its own). -/
structure UpdateRecordResult where
  warnings : List String
  session : Option SessionState
deriving DecidableEq, Repr

/-- Definition `_updateRecord` from main.js: sentinel id → warn, return a handle whose
stop flips a flag no timer ever reads; otherwise install the interval
immediately with the given id. -/
def trackerUpdateRecord (recordId : String) : UpdateRecordResult :=
  if isFakeId recordId then
    { warnings := [ownSiteWarning], session := none }
  else
    { warnings := [],
      session := some { isStopped := false, timerActive := true, recordId := recordId } }

/-- The requests the heartbeat of a finished `record` call sends under a
schedule: none at all when no session was installed. -/
def recordHeartbeatSends (r : RecordResult) (evs : List SchedEv) : List RequestBody :=
  match r.session with
  | none => []
  | some s => (runHeartbeat s evs).2

/-- Calling `stop()` on a returned handle: flips the session flag when a session
exists; with no session the flag is dead state and nothing observable
happens (and nothing is thrown — the function is total). -/
def handleStop : Option SessionState → Option SessionState :=
  Option.map stopHeartbeat

/-- Everything observable about one `_action(eventId, attrs, next)` call. -/
structure ActionResult where
  sends : List RequestBody
  warnings : List String
  errorLogs : List String
  nextArg : Option String
deriving DecidableEq, Repr

/-- Definition `_action` from main.js: one-shot createAction through `send`; sentinel
result warns and stops; otherwise `next` receives the new action id. -/
def trackerAction (options : TrackerOptions) (eventId : String) (attrs : Attributes)
    (hasNext : Bool) (resp : FetchOutcome) : ActionResult :=
  let tr := send options resp (some (fun _ => none))
  match tr.callbackArg with
  | none =>
    { sends := [createActionBody eventId attrs], warnings := [],
      errorLogs := tr.errorLogs, nextArg := none }
  | some json =>
    let actionId := json.payloadId
    if isFakeId actionId then
      { sends := [createActionBody eventId attrs], warnings := [ownSiteWarning],
        errorLogs := tr.errorLogs, nextArg := none }
    else
      { sends := [createActionBody eventId attrs], warnings := [],
        errorLogs := tr.errorLogs,
        nextArg := if hasNext then some actionId else none }

/-- Everything observable about one `_updateAction(actionId, attrs)` call. -/
structure UpdateActionResult where
  sends : List RequestBody
  warnings : List String
deriving DecidableEq, Repr

/-- Definition `_updateAction` from main.js: sentinel id → warn, send nothing;
otherwise send updateAction unconditionally. -/
def trackerUpdateAction (actionId : String) (attrs : Attributes) : UpdateActionResult :=
  if isFakeId actionId then
    { sends := [], warnings := [ownSiteWarning] }
  else
    { sends := [updateActionBody actionId attrs], warnings := [] }

/-! Instance factory (`create`). -/

/-- Warning texts of the creation gate. -/
def localhostWarning : String := "Tracker ignores you because you are on localhost"

/-- Warning text of the bot gate. -/
def botWarning : String := "Tracker ignores you because you are a bot"

/-- A tracking instance: the fake (no-op) one, or a real one carrying the
endpoint URL and validated options its operations close over. -/
inductive Instance where
  | fake
  | real (url : List Char) (opts : TrackerOptions)
deriving DecidableEq, Repr

/-- Definition `create` from main.js: validate options, build the endpoint URL, then the
gate — localhost (when `ignoreLocalhost`) first, bot second — each returning
the fake instance after one warning; otherwise the real instance. -/
def create (server : List Char) (options : List (String × JSVal))
    (hostname userAgent : String) : Instance × List String :=
  let opts := validate options
  let url := endpoint server
  if opts.ignoreLocalhost && isLocalhost hostname then
    (.fake, [localhostWarning])
  else if isBot userAgent then
    (.fake, [botWarning])
  else
    (.real url opts, [])

/-- Operation `record` on an instance: the fake instance does nothing and returns an
inert handle; the real one runs `_record`. -/
def instanceRecord (inst : Instance) (domainId : String) (attrs : Attributes)
    (hasNext : Bool) (resp : FetchOutcome) : RecordResult :=
  match inst with
  | .fake =>
    { sends := [], warnings := [], errorLogs := [], session := none, nextArg := none }
  | .real _ opts => trackerRecord opts domainId attrs hasNext resp

/-- Operation `updateRecord` on an instance: fake → inert handle, nothing else. -/
def instanceUpdateRecord (inst : Instance) (recordId : String) : UpdateRecordResult :=
  match inst with
  | .fake => { warnings := [], session := none }
  | .real _ _ => trackerUpdateRecord recordId

/-- Operation `action` on an instance: fake → no-op. -/
def instanceAction (inst : Instance) (eventId : String) (attrs : Attributes)
    (hasNext : Bool) (resp : FetchOutcome) : ActionResult :=
  match inst with
  | .fake => { sends := [], warnings := [], errorLogs := [], nextArg := none }
  | .real _ opts => trackerAction opts eventId attrs hasNext resp

/-- Operation `updateAction` on an instance: fake → no-op. -/
def instanceUpdateAction (inst : Instance) (actionId : String) (attrs : Attributes) :
    UpdateActionResult :=
  match inst with
  | .fake => { sends := [], warnings := [] }
  | .real _ _ => trackerUpdateAction actionId attrs

/-! Helper lemmas. -/

lemma getField_cons_ne (o : List (String × JSVal)) (k key : String) (v : JSVal)
    (h : k ≠ key) : getField ((k, v) :: o) key = getField o key := by
  have hb : (k == key) = false := beq_eq_false_iff_ne.mpr h
  simp [getField, List.find?, hb]

lemma dropLast_append_of_getLast? {l : List Char} {c : Char}
    (h : l.getLast? = some c) : l.dropLast ++ [c] = l := by
  induction l with
  | nil => simp at h
  | cons a t ih =>
    cases t with
    | nil => simp_all
    | cons b t2 =>
      rw [List.getLast?_cons_cons] at h
      simpa [List.dropLast] using ih h

lemma sendChain_fst_some (resp : FetchOutcome) (f : Json → Option String) :
    (sendChain resp (some f)).1 = sendClean resp := by
  cases resp with
  | rejected m => rfl
  | response ok body =>
    cases ok with
    | false => rfl
    | true =>
      cases herr : body.errors with
      | none => simp [sendChain, sendClean, herr]
      | some es => cases es <;> simp [sendChain, sendClean, herr]

lemma send_callbackArg_some (opts : TrackerOptions) (resp : FetchOutcome)
    (f : Json → Option String) :
    (send opts resp (some f)).callbackArg = sendClean resp := by
  simp [send, sendChain_fst_some]

/-! Claims. -/

/-- C5: every request issued by `send` omits ambient credentials exactly when
the validated `ignoreOwnVisits` option is true, and includes them otherwise. -/
theorem send_credential_policy (opts : TrackerOptions) (resp : FetchOutcome)
    (next : Option (Json → Option String)) :
    (send opts resp next).credentialsOmitted = opts.ignoreOwnVisits := by
  rfl

/-- C7: for every input to `validate` — absent (`[]`), partial, or with
unexpected fields — each output field keeps its documented default unless the
input holds the opposite boolean literal for it; unrecognized fields are
ignored; `validate` is total, so no input raises. -/
theorem validate_defaults_spec :
    (∀ o : List (String × JSVal),
      ((validate o).detailed = true ↔ getField o "detailed" = .bool true) ∧
      ((validate o).ignoreLocalhost = false ↔ getField o "ignoreLocalhost" = .bool false) ∧
      ((validate o).ignoreOwnVisits = false ↔ getField o "ignoreOwnVisits" = .bool false) ∧
      (∀ k v, k ≠ "detailed" → k ≠ "ignoreLocalhost" → k ≠ "ignoreOwnVisits" →
        validate ((k, v) :: o) = validate o)) ∧
    validate [] = { detailed := false, ignoreLocalhost := true, ignoreOwnVisits := true } ∧
    validate [("detailed", .bool true), ("ignoreLocalhost", .bool false)] =
      { detailed := true, ignoreLocalhost := false, ignoreOwnVisits := true } := by
  refine ⟨fun o => ⟨?_, ?_, ?_, ?_⟩, by decide, by decide⟩
  · simp [validate]
  · simp [validate]
  · simp [validate]
  · intro k v h1 h2 h3
    simp [validate, getField_cons_ne o k _ v h1, getField_cons_ne o k _ v h2,
      getField_cons_ne o k _ v h3]

/-- C7 witness: an unrecognized field on an otherwise empty input is ignored. -/
theorem validate_defaults_spec_witness :
    validate [("telemetry", .bool false)] = validate [] :=
  (validate_defaults_spec.1 []).2.2.2 "telemetry" (.bool false)
    (by decide) (by decide) (by decide)

/-- C8: `endpoint` appends `api` to the base URL with exactly one separating
slash: a base URL already ending in a slash keeps it and gains no second one,
any other base URL gains one; both spec examples yield
`https://sol.example.com/api`. -/
theorem endpoint_single_slash :
    (∀ server : List Char,
      endpoint server =
        (if server.getLast? = some '/' then server.dropLast else server) ++ "/api".data) ∧
    endpoint "https://sol.example.com".data = "https://sol.example.com/api".data ∧
    endpoint "https://sol.example.com/".data = "https://sol.example.com/api".data := by
  refine ⟨?_, by decide, by decide⟩
  intro server
  by_cases h : server.getLast? = some '/'
  · have h2 := dropLast_append_of_getLast? h
    calc endpoint server = server ++ "api".data := by simp [endpoint, h]
    _ = (server.dropLast ++ ['/']) ++ "api".data := by rw [h2]
    _ = server.dropLast ++ "/api".data := by simp
    _ = (if server.getLast? = some '/' then server.dropLast else server) ++ "/api".data := by
        rw [if_pos h]
  · simp [endpoint, h]

lemma runHeartbeat_of_stopped (evs : List SchedEv) :
    ∀ s : SessionState, s.isStopped = true →
      (runHeartbeat s evs).2 = [] ∧ (runHeartbeat s evs).1.isStopped = true := by
  induction evs with
  | nil => intro s hs; simpa [runHeartbeat]
  | cons ev rest ih =>
    intro s hs
    cases ev with
    | stopCall =>
      have : (stopHeartbeat s).isStopped = true := rfl
      simpa [runHeartbeat] using ih (stopHeartbeat s) this
    | tick h =>
      by_cases ht : s.timerActive = true
      · have htick : heartbeatTick h s = ({ s with timerActive := false }, []) := by
          simp [heartbeatTick, hs]
        have := ih { s with timerActive := false } hs
        simp [runHeartbeat, ht, htick, this.1, this.2]
      · simp only [runHeartbeat]
        rw [if_neg ht]
        exact ih s hs

lemma runHeartbeat_append (evs1 evs2 : List SchedEv) :
    ∀ s : SessionState,
      (runHeartbeat s (evs1 ++ evs2)).2 =
        (runHeartbeat s evs1).2 ++ (runHeartbeat (runHeartbeat s evs1).1 evs2).2 := by
  induction evs1 with
  | nil => intro s; simp [runHeartbeat]
  | cons ev rest ih =>
    intro s
    cases ev with
    | stopCall => simpa [runHeartbeat] using ih (stopHeartbeat s)
    | tick h =>
      by_cases ht : s.timerActive = true
      · simp [runHeartbeat, ht, ih (heartbeatTick h s).1]
      · simp only [List.cons_append, runHeartbeat]
        rw [if_neg ht, if_neg ht]
        exact ih s

/-- C1: a heartbeat tick checks the stopped flag first — if set it clears the
interval and sends nothing; an unstopped tick in the background sends nothing
and keeps the timer; an unstopped foreground tick sends exactly one
updateRecord for the session id. `stop()` only flips the flag, so under any
schedule the requests of a run with a `stop()` call are exactly those of the
ticks dispatched before it: no send happens on any tick at or after the first
one observing the flag. Both `record` (clean non-sentinel response) and
`updateRecord` (non-sentinel id) install exactly this machine. -/
theorem heartbeat_tick_spec :
    (∀ (s : SessionState) (h : Bool), s.isStopped = true →
      heartbeatTick h s = ({ s with timerActive := false }, [])) ∧
    (∀ s : SessionState, s.isStopped = false → heartbeatTick true s = (s, [])) ∧
    (∀ s : SessionState, s.isStopped = false →
      heartbeatTick false s = (s, [updateRecordBody s.recordId])) ∧
    (∀ s : SessionState, stopHeartbeat s =
      { isStopped := true, timerActive := s.timerActive, recordId := s.recordId }) ∧
    (∀ (s : SessionState) (pre post : List SchedEv),
      (runHeartbeat s (pre ++ SchedEv.stopCall :: post)).2 = (runHeartbeat s pre).2) ∧
    (∀ (opts : TrackerOptions) (d : String) (a : Attributes) (hn : Bool) (json : Json),
      json.errors = none → isFakeId json.payloadId = false →
      (trackerRecord opts d a hn (.response true json)).session =
        some { isStopped := false, timerActive := true, recordId := json.payloadId }) ∧
    (∀ rid : String, isFakeId rid = false →
      (trackerUpdateRecord rid).session =
        some { isStopped := false, timerActive := true, recordId := rid }) := by
  refine ⟨?_, ?_, ?_, ?_, ?_, ?_, ?_⟩
  · intro s h hs; simp [heartbeatTick, hs]
  · intro s hs; simp [heartbeatTick, hs]
  · intro s hs; simp [heartbeatTick, hs]
  · intro s; rfl
  · intro s pre post
    rw [runHeartbeat_append]
    have hstop : (stopHeartbeat (runHeartbeat s pre).1).isStopped = true := rfl
    have := runHeartbeat_of_stopped post (stopHeartbeat (runHeartbeat s pre).1) hstop
    simp [runHeartbeat, this.1]
  · intro opts d a hn json herr hid
    simp [trackerRecord, send_callbackArg_some, sendClean, herr, hid]
  · intro rid hid
    simp [trackerUpdateRecord, hid]

/-- C1 witness: a concrete run — one foreground tick, a `stop()`, then a
foreground tick and a hidden tick — sends exactly one updateRecord, from the
tick before the stop. -/
theorem heartbeat_tick_spec_witness :
    (runHeartbeat { isStopped := false, timerActive := true, recordId := "r1" }
      ([SchedEv.tick false] ++ SchedEv.stopCall :: [SchedEv.tick false, SchedEv.tick true])).2 =
      (runHeartbeat { isStopped := false, timerActive := true, recordId := "r1" }
        [SchedEv.tick false]).2 ∧
    (trackerUpdateRecord "r1").session =
      some { isStopped := false, timerActive := true, recordId := "r1" } :=
  ⟨heartbeat_tick_spec.2.2.2.2.1 _ [SchedEv.tick false] [SchedEv.tick false, SchedEv.tick true],
   heartbeat_tick_spec.2.2.2.2.2.2 "r1" (by decide)⟩

/-- C2: a `record` call whose createRecord response carries the sentinel id
logs the ignored-visitor warning, installs no heartbeat session, and no
schedule of timer events ever produces an updateRecord request for it. -/
theorem sentinel_record_no_heartbeat (opts : TrackerOptions) (domainId : String)
    (attrs : Attributes) (hasNext : Bool) (json : Json)
    (herr : json.errors = none) (hid : json.payloadId = fakeIdValue) :
    (trackerRecord opts domainId attrs hasNext (.response true json)).warnings =
      [ownSiteWarning] ∧
    (trackerRecord opts domainId attrs hasNext (.response true json)).session = none ∧
    (trackerRecord opts domainId attrs hasNext (.response true json)).nextArg = none ∧
    ∀ evs : List SchedEv,
      recordHeartbeatSends (trackerRecord opts domainId attrs hasNext (.response true json)) evs
        = [] := by
  have hfake : isFakeId json.payloadId = true := by simp [isFakeId, hid]
  refine ⟨?_, ?_, ?_, ?_⟩ <;>
    simp [trackerRecord, send_callbackArg_some, sendClean, herr, hfake, recordHeartbeatSends]

/-- C2 witness: the sentinel response at concrete inputs. -/
theorem sentinel_record_no_heartbeat_witness :
    (trackerRecord { detailed := false, ignoreLocalhost := true, ignoreOwnVisits := true }
      "dom1" { siteLocation := "", siteReferrer := "", source := none, detailedData := none }
      true (.response true { errors := none, payloadId := fakeIdValue })).session = none :=
  (sentinel_record_no_heartbeat _ "dom1" _ true _ rfl rfl).2.1

/-- C9: with a `next` callback supplied, `record` invokes it, with the new
record id, exactly when the createRecord response is clean and the returned id
is not the sentinel; on a sentinel id the callback is never invoked even
though the transport call succeeded. -/
theorem record_callback_spec (opts : TrackerOptions) (d : String) (a : Attributes)
    (resp : FetchOutcome) :
    (∀ i, (trackerRecord opts d a true resp).nextArg = some i ↔
      ∃ j, sendClean resp = some j ∧ j.payloadId = i ∧ isFakeId i = false) ∧
    (∀ j, sendClean resp = some j → isFakeId j.payloadId = true →
      (trackerRecord opts d a true resp).nextArg = none) := by
  constructor
  · intro i
    cases hc : sendClean resp with
    | none => simp [trackerRecord, send_callbackArg_some, hc]
    | some j =>
      by_cases hf : isFakeId j.payloadId = true
      · simp only [trackerRecord, send_callbackArg_some, hc, hf, if_true]
        constructor
        · intro h; cases h
        · rintro ⟨j2, hj2, hpi, hfi⟩
          rw [Option.some_inj] at hj2
          subst hj2; subst hpi
          rw [hf] at hfi; cases hfi
      · have hf2 : isFakeId j.payloadId = false := by
          cases hb : isFakeId j.payloadId
          · rfl
          · exact absurd hb hf
        simp only [trackerRecord, send_callbackArg_some, hc, hf2, Bool.false_eq_true,
          if_false, if_true]
        constructor
        · intro h
          rw [Option.some_inj] at h
          exact ⟨j, rfl, h, h ▸ hf2⟩
        · rintro ⟨j2, hj2, hpi, hfi⟩
          rw [Option.some_inj] at hj2
          subst hj2; subst hpi; rfl
  · intro j hc hf
    simp [trackerRecord, send_callbackArg_some, hc, hf]

/-- C9 witness: a clean response with a normal id invokes the callback with
that id; the sentinel id does not. -/
theorem record_callback_spec_witness :
    (trackerRecord { detailed := false, ignoreLocalhost := true, ignoreOwnVisits := true }
      "dom1" { siteLocation := "", siteReferrer := "", source := none, detailedData := none }
      true (.response true { errors := none, payloadId := "id-1" })).nextArg = some "id-1" ∧
    (trackerRecord { detailed := false, ignoreLocalhost := true, ignoreOwnVisits := true }
      "dom1" { siteLocation := "", siteReferrer := "", source := none, detailedData := none }
      true (.response true { errors := none, payloadId := fakeIdValue })).nextArg = none :=
  ⟨((record_callback_spec _ "dom1" _ _).1 "id-1").mpr
      ⟨{ errors := none, payloadId := "id-1" }, rfl, rfl, by decide⟩,
   (record_callback_spec _ "dom1" _ _).2 { errors := none, payloadId := fakeIdValue }
      rfl (by decide)⟩

/-- C3: whenever the validated `ignoreLocalhost` is true and the hostname is a
localhost, or the user agent is a bot, `create` returns the fake instance with
exactly one warning naming the reason (localhost checked first); every
operation of that instance issues zero requests, and the handle a fake
`record`/`updateRecord` returns carries no session, so its `stop()` does
nothing and (being a total function) cannot throw. -/
theorem gate_fake_instance (server : List Char) (options : List (String × JSVal))
    (hostname ua : String)
    (hgate : ((validate options).ignoreLocalhost = true ∧ isLocalhost hostname = true)
      ∨ isBot ua = true) :
    (create server options hostname ua).1 = Instance.fake ∧
    (create server options hostname ua).2 =
      (if (validate options).ignoreLocalhost && isLocalhost hostname
        then [localhostWarning] else [botWarning]) ∧
    (create server options hostname ua).2.length = 1 ∧
    (∀ d a hn resp, instanceRecord (create server options hostname ua).1 d a hn resp =
      { sends := [], warnings := [], errorLogs := [], session := none, nextArg := none }) ∧
    (∀ d a hn resp,
      handleStop (instanceRecord (create server options hostname ua).1 d a hn resp).session
        = none) ∧
    (∀ rid, instanceUpdateRecord (create server options hostname ua).1 rid =
      { warnings := [], session := none }) ∧
    (∀ e a hn resp, instanceAction (create server options hostname ua).1 e a hn resp =
      { sends := [], warnings := [], errorLogs := [], nextArg := none }) ∧
    (∀ aid a, instanceUpdateAction (create server options hostname ua).1 aid a =
      { sends := [], warnings := [] }) := by
  have hbase : (create server options hostname ua).1 = Instance.fake ∧
      (create server options hostname ua).2 =
        (if (validate options).ignoreLocalhost && isLocalhost hostname
          then [localhostWarning] else [botWarning]) := by
    by_cases h1 : ((validate options).ignoreLocalhost && isLocalhost hostname) = true
    · constructor <;> simp [create, h1]
    · have hbot : isBot ua = true := by
        rcases hgate with ⟨ha, hb⟩ | hb
        · exact absurd (by simp [ha, hb]) h1
        · exact hb
      constructor <;> simp [create, h1, hbot]
  refine ⟨hbase.1, hbase.2, ?_, ?_, ?_, ?_, ?_, ?_⟩
  · rw [hbase.2]; by_cases h1 : ((validate options).ignoreLocalhost && isLocalhost hostname)
      <;> simp [h1]
  · intro d a hn resp; rw [hbase.1]; rfl
  · intro d a hn resp; rw [hbase.1]; rfl
  · intro rid; rw [hbase.1]; rfl
  · intro e a hn resp; rw [hbase.1]; rfl
  · intro aid a; rw [hbase.1]; rfl

/-- C3 witness: `ignoreLocalhost` defaulted, hostname `localhost`, a plain
browser user agent — the fake instance with the localhost warning. -/
theorem gate_fake_instance_witness :
    (create "https://sol.example.com".data [] "localhost" "Mozilla/5.0").1 = Instance.fake ∧
    (create "https://sol.example.com".data [] "localhost" "Mozilla/5.0").2 =
      (if (validate []).ignoreLocalhost && isLocalhost "localhost"
        then [localhostWarning] else [botWarning]) :=
  ⟨(gate_fake_instance _ [] "localhost" "Mozilla/5.0"
      (Or.inl ⟨by decide, by decide⟩)).1,
   (gate_fake_instance _ [] "localhost" "Mozilla/5.0"
      (Or.inl ⟨by decide, by decide⟩)).2.1⟩

/-- C4: each `send` call issues exactly one request and lets nothing escape;
its callback is invoked, with the parsed body, exactly when the HTTP status is
ok, the body has no top-level `errors`, and a callback was supplied; a
non-success status logs the status error and skips the callback; a body with a
non-empty `errors` list logs the message of the first error and skips the
callback. -/
theorem send_error_boundary (opts : TrackerOptions) (resp : FetchOutcome)
    (next : Option (Json → Option String)) :
    (send opts resp next).requests = 1 ∧
    (send opts resp next).escaped = none ∧
    (∀ j, (send opts resp next).callbackArg = some j ↔
      (resp = .response true j ∧ j.errors = none ∧ next.isSome = true)) ∧
    (∀ body, resp = .response false body →
      (send opts resp next).errorLogs = [statusErrorMsg] ∧
      (send opts resp next).callbackArg = none) ∧
    (∀ body m ms, resp = .response true body → body.errors = some (m :: ms) →
      (send opts resp next).errorLogs = [m] ∧
      (send opts resp next).callbackArg = none) := by
  refine ⟨rfl, rfl, ?_, ?_, ?_⟩
  · intro j
    cases resp with
    | rejected m => simp [send, sendChain]
    | response ok body =>
      cases ok with
      | false => simp [send, sendChain]
      | true =>
        cases herr : body.errors with
        | none =>
          cases next with
          | none => simp [send, sendChain, herr]
          | some f =>
            constructor
            · intro h
              have hbj : body = j := by simpa [send, sendChain, herr] using h
              subst hbj
              exact ⟨rfl, herr, rfl⟩
            · rintro ⟨hr, _, _⟩
              cases hr
              simp [send, sendChain, herr]
        | some es =>
          cases es with
          | nil =>
            constructor
            · intro h
              exact absurd h (by simp [send, sendChain, herr])
            · rintro ⟨hr, hj, _⟩
              cases hr
              rw [herr] at hj; cases hj
          | cons m ms =>
            constructor
            · intro h
              exact absurd h (by simp [send, sendChain, herr])
            · rintro ⟨hr, hj, _⟩
              cases hr
              rw [herr] at hj; cases hj
  · rintro body rfl
    cases next <;> simp [send, sendChain]
  · rintro body m ms rfl herr
    cases next <;> simp [send, sendChain, herr]

/-- C4 witness: a response with an application error list logs the first
message and does not invoke the callback. -/
theorem send_error_boundary_witness :
    (send { detailed := false, ignoreLocalhost := true, ignoreOwnVisits := true }
      (.response true { errors := some ["bad query", "other"], payloadId := "" })
      none).errorLogs = ["bad query"] ∧
    (send { detailed := false, ignoreLocalhost := true, ignoreOwnVisits := true }
      (.response true { errors := some ["bad query", "other"], payloadId := "" })
      none).callbackArg = none :=
  (send_error_boundary _ _ none).2.2.2.2 _ "bad query" ["other"] rfl rfl

/-- C10: an exception thrown by the `next` callback itself is caught inside
`send` and only logged — and more generally no `send` invocation lets
anything escape past its catch boundary, whatever the response or the
callback does. -/
theorem send_callback_exception_caught (opts : TrackerOptions) (body : Json)
    (f : Json → Option String) (m : String)
    (herr : body.errors = none) (hthrow : f body = some m) :
    (∀ (resp : FetchOutcome) (next : Option (Json → Option String)),
      (send opts resp next).escaped = none) ∧
    (send opts (.response true body) (some f)).callbackArg = some body ∧
    (send opts (.response true body) (some f)).errorLogs = [m] := by
  refine ⟨fun resp next => rfl, ?_, ?_⟩
  · simp [send, sendChain, herr]
  · simp [send, sendChain, herr, hthrow]

/-- C10 witness: a concrete throwing callback on a clean response. -/
theorem send_callback_exception_caught_witness :
    (send { detailed := false, ignoreLocalhost := true, ignoreOwnVisits := true }
      (.response true { errors := none, payloadId := "id-1" })
      (some fun _ => some "callback blew up")).errorLogs = ["callback blew up"] :=
  (send_callback_exception_caught _ { errors := none, payloadId := "id-1" }
    (fun _ => some "callback blew up") "callback blew up" rfl rfl).2.2

lemma jsSplitF_fuel (sep : List Char) (hsep : sep ≠ []) :
    ∀ (f1 f2 : Nat) (s : List Char), s.length ≤ f1 → s.length ≤ f2 →
      jsSplitF sep f1 s = jsSplitF sep f2 s := by
  intro f1
  induction f1 with
  | zero =>
    intro f2 s hs1 _
    have : s = [] := List.length_eq_zero.mp (Nat.le_zero.mp hs1)
    subst this
    cases f2 <;> rfl
  | succ n ih =>
    intro f2 s hs1 hs2
    cases s with
    | nil => cases f2 <;> rfl
    | cons c rest =>
      cases f2 with
      | zero => simp at hs2
      | succ m =>
        have hsl : 1 ≤ sep.length := List.length_pos.mpr hsep
        simp only [jsSplitF]
        by_cases hp : sep.isPrefixOf (c :: rest)
        · rw [if_pos hp, if_pos hp]
          have hd : ((c :: rest).drop sep.length).length ≤ n := by
            rw [List.length_drop]
            simp only [List.length_cons] at hs1 ⊢
            omega
          have hd2 : ((c :: rest).drop sep.length).length ≤ m := by
            rw [List.length_drop]
            simp only [List.length_cons] at hs2 ⊢
            omega
          rw [ih m ((c :: rest).drop sep.length) hd hd2]
        · rw [if_neg hp, if_neg hp]
          have hr1 : rest.length ≤ n := by
            simp only [List.length_cons] at hs1; omega
          have hr2 : rest.length ≤ m := by
            simp only [List.length_cons] at hs2; omega
          rw [ih m rest hr1 hr2]

lemma jsSplitF_eq_takeUntil (sep : List Char) (hsep : sep ≠ []) :
    ∀ (fuel : Nat) (s : List Char), s.length ≤ fuel →
      jsSplitF sep fuel s =
        takeUntil sep s ::
          (afterFirst sep s).elim [] (fun t => jsSplitF sep t.length t) := by
  intro fuel
  induction fuel with
  | zero =>
    intro s hs
    have : s = [] := List.length_eq_zero.mp (Nat.le_zero.mp hs)
    subst this
    rfl
  | succ n ih =>
    intro s hs
    cases s with
    | nil => rfl
    | cons c rest =>
      have hsl : 1 ≤ sep.length := List.length_pos.mpr hsep
      by_cases hp : sep.isPrefixOf (c :: rest)
      · have hd : ((c :: rest).drop sep.length).length ≤ n := by
          rw [List.length_drop]
          simp only [List.length_cons] at hs ⊢
          omega
        simp only [jsSplitF, takeUntil, afterFirst, if_pos hp, Option.elim]
        rw [jsSplitF_fuel sep hsep n ((c :: rest).drop sep.length).length
          ((c :: rest).drop sep.length) hd (le_refl _)]
      · have hr : rest.length ≤ n := by
          simp only [List.length_cons] at hs; omega
        simp only [jsSplitF, takeUntil, afterFirst, if_neg hp]
        rw [ih rest hr]

lemma jsSplit_getD_zero (sep : List Char) (hsep : sep ≠ []) (s : List Char) :
    (jsSplit sep s).getD 0 [] = takeUntil sep s := by
  rw [jsSplit, jsSplitF_eq_takeUntil sep hsep s.length s (le_refl _)]
  rfl

lemma jsSplit_getD_one (sep : List Char) (hsep : sep ≠ []) (s : List Char) :
    (jsSplit sep s).getD 1 [] = (afterFirst sep s).elim [] (takeUntil sep) := by
  rw [jsSplit, jsSplitF_eq_takeUntil sep hsep s.length s (le_refl _)]
  cases ha : afterFirst sep s with
  | none => rfl
  | some t =>
    simp only [Option.elim, List.getD_cons_succ]
    rw [jsSplitF_eq_takeUntil sep hsep t.length t (le_refl _)]
    rfl

/-- The page state of the C6 counterexample: a URL whose query string has a
`utm_source` parameter and no parameter named `source`. -/
def envCE : Env where
  href := "https://site.test/?utm_source=bar"
  referrer := ""
  search := "?utm_source=bar".data
  language := "en-US"
  screenWidth := 1920
  screenHeight := 1080
  screenColorDepth := 24
  deviceName := ""
  deviceManufacturer := ""
  osName := ""
  osVersion := ""
  browserName := ""
  browserVersion := ""
  outerWidth := 1200
  outerHeight := 800

/-- C6 counterexample: on `?utm_source=bar` the attribute collector emits
`source = "bar"` although the query string has no parameter named `source`
(the spec-worded extraction yields nothing) — the code matches the literal
text `source=` inside `utm_source=`. -/
theorem source_param_counterexample :
    envCE.search = "?utm_source=bar".data ∧
    (attributes envCE false).source = some "bar".data ∧
    source envCE.search = some "bar".data ∧
    sourceParam envCE.search = none := by
  refine ⟨rfl, ?_, ?_, ?_⟩ <;> decide

/-- C6 amended: the `source` field of the attribute collector is the text
after the first occurrence of the literal substring `source=` anywhere in the
query string — possibly inside a longer parameter name such as `utm_source` —
truncated at the next occurrence of `source=` and then at the next `&`, and
absent when that text is empty or `source=` does not occur. -/
theorem source_amended_spec :
    (∀ (env : Env) (detailed : Bool), (attributes env detailed).source = source env.search) ∧
    (∀ search : List Char, source search = sourceAmended search) := by
  refine ⟨fun env detailed => rfl, fun search => ?_⟩
  have h1 : ("source=".data : List Char) ≠ [] := by decide
  have h2 : ("&".data : List Char) ≠ [] := by decide
  simp only [source, sourceAmended, jsSplit_getD_one "source=".data h1,
    jsSplit_getD_zero "&".data h2]
  cases ha : afterFirst "source=".data search with
  | none => rfl
  | some t => rfl

end SolTracker
